import Mathlib

/-!
Verification of the background-job subsystem of go-server-boilerplate
(`internal/infrastructure/jobs/worker.go` and
`internal/infrastructure/jobs/scheduler.go`).

The Go code is shallowly embedded: each Go function becomes a Lean
function on explicit state; goroutine interleavings that matter to a
property are made explicit as parameters (which select branch fired,
which workers are currently inside `job.Execute`, the sequence of
ticker/cancellation events a scheduler loop observes); channel sends on
the bounded `jobQueue` become a queue represented as a list with an
explicit capacity check; `uuid.New()` becomes a fresh-counter supply.
Go `error` values are `Option String` (`none` = nil).
-/

namespace Jobs

/-- Go `error`: `none` models a nil error. -/
abbrev GoErr := Option String

/-- Minimal model of a `context.Context`: whether its Done channel is
closed (deadline expired or cancelled), and an optional deadline in
minutes (carried for faithfulness of `context.WithTimeout`). -/
structure Ctx where
  expired : Bool
  deadlineMins : Option Nat
deriving DecidableEq

/-- The `Job` interface of worker.go lines 14-21: `ID()`, `Name()`,
`Execute(ctx) error`. Ids are modelled as naturals (a uuid string in Go). -/
structure Job where
  id : Nat
  name : String
  execute : Ctx → GoErr

inductive LogLevel
  | info
  | warn
  | error
deriving DecidableEq

/-- One structured log call (`logger.Info/Warn/Error` with zap fields).
Optional fields mirror `job_id`, `job_name`, `worker_id`, and the error. -/
structure LogEntry where
  level : LogLevel
  msg : String
  jobId : Option Nat
  jobName : Option String
  workerId : Option Nat
  err : Option String
deriving DecidableEq

/-- Observable events of the subsystem: a structured log call, or a call
of some job's `Execute` (recorded with the job id and the returned error). -/
inductive Event
  | log (entry : LogEntry)
  | exec (jobId : Nat) (result : GoErr)
deriving DecidableEq

/-- Worker state (worker.go lines 24-30). The queue, quit channel and
wait group live at the system level of the model; `maxRetries` is set to 3
by `NewWorker` and never read anywhere in the source. -/
structure Worker where
  id : Nat
  maxRetries : Nat
deriving DecidableEq

/-- `NewWorker` (worker.go lines 33-41). -/
def NewWorker (id : Nat) : Worker :=
  { id := id, maxRetries := 3 }

/-- The context a worker creates per job (worker.go line 57):
`context.WithTimeout(context.Background(), 5*time.Minute)` — fresh, not
expired, with a 5-minute deadline. -/
def workerJobCtx : Ctx :=
  { expired := false, deadlineMins := some 5 }

/-- Outcome of one iteration of the worker run loop on the job branch:
the events emitted, whether the loop continues (`alive`), any jobs the
worker puts back on the queue (`requeued` — the source never re-enqueues),
and any error surfaced to the Dispatcher (`propagated` — the source
surfaces none). -/
structure WorkerOutcome where
  events : List Event
  alive : Bool
  requeued : List Job
  propagated : GoErr

/-- One iteration of the loop in `Worker.Start` on the `job := <-w.jobQueue`
branch (worker.go lines 50-74): log "Processing job", run `job.Execute`
under the 5-minute context, then log error or success; the loop continues
either way, nothing is retried and no error leaves the goroutine. -/
def Worker.processOne (w : Worker) (job : Job) : WorkerOutcome :=
  let res := job.execute workerJobCtx
  { events :=
      [Event.log ⟨LogLevel.info, "Processing job", some job.id, some job.name, some w.id, none⟩,
       Event.exec job.id res] ++
      (match res with
       | some e =>
         [Event.log ⟨LogLevel.error, "Failed to process job", some job.id, some job.name, some w.id, some e⟩]
       | none =>
         [Event.log ⟨LogLevel.info, "Job completed successfully", some job.id, some job.name, some w.id, none⟩]),
    alive := true,
    requeued := [],
    propagated := none }

/-- Dispatcher state (worker.go lines 100-109). The channels and wait
group are modelled at use sites; `jobQueue` is the bounded channel's
buffer contents in FIFO order (head = next to be received). -/
structure Dispatcher where
  workerPool : List Worker
  maxWorkers : Nat
  jobQueue : List Job
  isRunning : Bool

/-- Capacity of the job queue channel: `make(chan Job, 100)` (worker.go line 113). -/
def queueCapacity : Nat := 100

/-- `NewDispatcher` (worker.go lines 112-123): empty worker slice
(capacity hint `maxWorkers`), empty queue of capacity 100, not running. -/
def NewDispatcher (maxWorkers : Nat) : Dispatcher :=
  { workerPool := [], maxWorkers := maxWorkers, jobQueue := [], isRunning := false }

/-- `Dispatcher.Start` (worker.go lines 126-145): under the mutex, a no-op
if already running; otherwise APPENDS `maxWorkers` fresh workers with ids
`0..maxWorkers-1` to the existing pool (the source never clears
`workerPool`) and flips `isRunning`. -/
def Dispatcher.Start (d : Dispatcher) : Dispatcher :=
  if d.isRunning then d
  else
    { d with
      workerPool := d.workerPool ++ (List.range d.maxWorkers).map NewWorker,
      isRunning := true }

/-- State of a Dispatcher once a call of `Dispatcher.Stop` has returned
(worker.go lines 148-179): no-op when not running; otherwise, whichever
branch of the final select fired, `isRunning` is set to false and the
queue and pool are untouched. -/
def Dispatcher.StopState (d : Dispatcher) : Dispatcher :=
  if d.isRunning then { d with isRunning := false } else d

/-- Control point a call of `Dispatcher.Stop(ctx)` has reached, given the
runtime situation of the workers and of the context. -/
inductive StopExec
  | noop
  | blockedOnQuitSend (workerIdx : Nat)
  | blockedInSelect
  | returned (d : Dispatcher) (timedOut : Bool)

/-- Index of the first worker currently busy inside `job.Execute`, if any:
the first receiver whose `quit` channel has no ready receiver. -/
def firstBusy : List Bool → Option Nat
  | [] => none
  | true :: _ => some 0
  | false :: rest => (firstBusy rest).map (· + 1)

/-- `Dispatcher.Stop(ctx)` (worker.go lines 148-179) with the goroutine
interleaving made explicit. `busy` has one flag per pooled worker: `true`
when that worker is currently inside `job.Execute`, hence not parked at
its select. Phase 1 (lines 159-161) sends `true` on each worker's
UNBUFFERED `quit` channel in pool order; such a send completes only when
the receiver is at its select, so the call is stuck at the first busy
worker. Phase 2 (lines 164-176) races `ctx.Done()` against the wait
group; when the workers have all exited the done branch fires, else when
the context is expired the warning branch fires; either way `isRunning`
becomes false. -/
def Dispatcher.stopExec (d : Dispatcher) (busy : List Bool)
    (ctxExpired workersExited : Bool) : StopExec :=
  if !d.isRunning then StopExec.noop
  else
    match firstBusy busy with
    | some i => StopExec.blockedOnQuitSend i
    | none =>
      if workersExited then StopExec.returned { d with isRunning := false } false
      else if ctxExpired then StopExec.returned { d with isRunning := false } true
      else StopExec.blockedInSelect

/-- Whether `Stop` with an already-expired context returns without waiting
on any unbounded event (true exactly when `stopExec` with
`ctxExpired = true` reaches `noop` or `returned`). -/
def stopReturnsPromptly (d : Dispatcher) (busy : List Bool) (workersExited : Bool) : Bool :=
  match d.stopExec busy true workersExited with
  | StopExec.noop => true
  | StopExec.returned _ _ => true
  | _ => false

/-- Result of a `DispatchJob` call; each constructor carries the
Dispatcher state when the call has that outcome (the state is unchanged
except on `enqueued`). `blocked` models the channel send stalling because
the buffer is at capacity: the job is neither dropped nor enqueued yet. -/
inductive DispatchResult
  | dropped (d : Dispatcher)
  | enqueued (d : Dispatcher)
  | blocked (d : Dispatcher)

/-- `Dispatcher.DispatchJob` (worker.go lines 182-197): when not running,
log a warning and return with nothing enqueued; when running, log info
and send on the queue channel — the send completes if the buffer has
room, else the caller blocks. -/
def Dispatcher.DispatchJob (d : Dispatcher) (job : Job) : DispatchResult × List Event :=
  if !d.isRunning then
    (DispatchResult.dropped d,
      [Event.log ⟨LogLevel.warn, "Cannot dispatch job: dispatcher is not running",
        some job.id, some job.name, none, none⟩])
  else if d.jobQueue.length < queueCapacity then
    (DispatchResult.enqueued { d with jobQueue := d.jobQueue ++ [job] },
      [Event.log ⟨LogLevel.info, "Dispatching job", some job.id, some job.name, none, none⟩])
  else
    (DispatchResult.blocked d,
      [Event.log ⟨LogLevel.info, "Dispatching job", some job.id, some job.name, none, none⟩])

/-- `Dispatcher.RunJob` (worker.go lines 200-207): log info, then call
`job.Execute(ctx)` in the caller's own thread of control and return its
error directly. The Dispatcher state (returned first) is untouched; the
running flag is never consulted. -/
def Dispatcher.RunJob (d : Dispatcher) (ctx : Ctx) (job : Job) :
    Dispatcher × GoErr × List Event :=
  let res := job.execute ctx
  (d,
   res,
   [Event.log ⟨LogLevel.info, "Running job immediately", some job.id, some job.name, none, none⟩,
    Event.exec job.id res])

/-- The externally driven operations on one Dispatcher: lifecycle calls,
a producer calling `DispatchJob`, and a worker receiving from the queue
channel (the `job := <-w.jobQueue` select branch). -/
inductive Op
  | start
  | stop
  | dispatch (job : Job)
  | deliver

/-- A Dispatcher together with the history of queue traffic: every job
admitted to the queue channel in send order, and every job received by a
worker in receive order. -/
structure Sys where
  disp : Dispatcher
  enqHistory : List Job
  deqHistory : List Job

/-- One system step. A `dispatch` changes state only when the send
completes (running and buffer below capacity): a blocked producer and a
warned-and-dropped submission both leave the queue as it was. A `deliver`
hands the head of the FIFO buffer to a worker. -/
def sysStep (s : Sys) : Op → Sys
  | Op.start => { s with disp := s.disp.Start }
  | Op.stop => { s with disp := s.disp.StopState }
  | Op.dispatch job =>
    match (s.disp.DispatchJob job).1 with
    | DispatchResult.enqueued d' =>
      { s with disp := d', enqHistory := s.enqHistory ++ [job] }
    | _ => s
  | Op.deliver =>
    match s.disp.jobQueue with
    | [] => s
    | j :: rest =>
      { disp := { s.disp with jobQueue := rest },
        enqHistory := s.enqHistory,
        deqHistory := s.deqHistory ++ [j] }

/-- A freshly constructed system: `NewDispatcher(n)` and no traffic yet. -/
def sysInit (n : Nat) : Sys :=
  { disp := NewDispatcher n, enqHistory := [], deqHistory := [] }

/-- Run a sequence of operations from a fresh system. -/
def sysRun (n : Nat) (ops : List Op) : Sys :=
  ops.foldl sysStep (sysInit n)

/-- ScheduledJob state (scheduler.go lines 15-26). The dispatcher binding
is modelled by returning the list of jobs handed to `DispatchJob`;
`ctxCancelled` records whether the internally owned
`context.WithCancel` context — created once, at construction — has had
its `cancel` called. -/
structure ScheduledJob where
  id : Nat
  name : String
  intervalMs : Nat
  executeFunc : Ctx → GoErr
  ctxCancelled : Bool
  isRunning : Bool

/-- `NewScheduledJob` (scheduler.go lines 29-41): fresh uuid (modelled as
a supplied natural), stores the action, creates the cancellable context
(not yet cancelled), not running. -/
def NewScheduledJob (uuid : Nat) (name : String) (intervalMs : Nat)
    (executeFunc : Ctx → GoErr) : ScheduledJob :=
  { id := uuid, name := name, intervalMs := intervalMs, executeFunc := executeFunc,
    ctxCancelled := false, isRunning := false }

/-- The `jobWrapper` built by `ScheduledJob.dispatchJob` (scheduler.go
lines 101-108): a fresh uuid as id, the scheduler's name and action. -/
def ScheduledJob.wrapJob (s : ScheduledJob) (uuid : Nat) : Job :=
  { id := uuid, name := s.name, execute := s.executeFunc }

/-- An event the goroutine loop of `ScheduledJob.Start` can observe at its
select (scheduler.go lines 66-77): a ticker tick, or the context's Done
channel being ready. -/
inductive SchedEvent
  | tick
  | ctxDone
deriving DecidableEq

/-- The loop of scheduler.go lines 66-77, run over the sequence of select
outcomes it observes, threading the uuid supply: each tick constructs a
fresh `jobWrapper` and hands it to `DispatchJob`; on `ctxDone` the loop
returns and observes nothing further. Returns the jobs dispatched by the
loop, in order. -/
def ScheduledJob.loopDispatches (s : ScheduledJob) : Nat → List SchedEvent → List Job
  | _, [] => []
  | uuidSupply, SchedEvent.tick :: rest =>
    s.wrapJob uuidSupply :: s.loopDispatches (uuidSupply + 1) rest
  | _, SchedEvent.ctxDone :: _ => []

/-- State change of `ScheduledJob.Start` (scheduler.go lines 44-79): no-op
when already running, else create the ticker and flip `isRunning`; the
context and its cancelled flag are NOT touched (never recreated). -/
def ScheduledJob.StartState (s : ScheduledJob) : ScheduledJob :=
  if s.isRunning then s else { s with isRunning := true }

/-- All jobs the goroutine spawned by `ScheduledJob.Start` hands to
`dispatcher.DispatchJob`, given the select outcomes the loop observes:
nothing when `Start` is a no-op; otherwise the immediate dispatch of
scheduler.go line 63 followed by the loop's dispatches. -/
def ScheduledJob.StartDispatches (s : ScheduledJob) (uuidSupply : Nat)
    (tr : List SchedEvent) : List Job :=
  if s.isRunning then []
  else s.wrapJob uuidSupply :: s.loopDispatches (uuidSupply + 1) tr

/-- `ScheduledJob.Stop` (scheduler.go lines 82-98): no-op when not
running; otherwise stop the ticker, call the internal `cancel` (the
context stays cancelled forever) and mark not running. -/
def ScheduledJob.Stop (s : ScheduledJob) : ScheduledJob :=
  if s.isRunning then { s with ctxCancelled := true, isRunning := false } else s

/-- Select outcomes the Go runtime can actually deliver to the loop: when
the scheduler's context is already cancelled at loop entry, its Done
channel is closed hence ready immediately, while the freshly created
ticker's first tick only arrives a full positive interval later — so the
loop's first select fires the `ctxDone` branch. -/
def admissibleTrace (s : ScheduledJob) (tr : List SchedEvent) : Prop :=
  s.ctxCancelled = true → tr.head? = some SchedEvent.ctxDone

/-! Concrete values used to evaluate the model. -/

/-- A concrete job whose action always succeeds. -/
def demoJob : Job :=
  { id := 7, name := "demo", execute := fun _ => none }

/-- A concrete job whose action fails with the error "boom". -/
def boomJob : Job :=
  { id := 3, name := "boom-job", execute := fun _ => some "boom" }

/-- A started one-worker dispatcher. -/
def busyStopDemo : Dispatcher := (NewDispatcher 1).Start

/-- `NewDispatcher(1)` taken through `Start`, a completed `Stop`, and a
second `Start`. -/
def restartDemo : Dispatcher := ((NewDispatcher 1).Start.StopState).Start

/-- A running dispatcher whose queue buffer holds `queueCapacity` jobs. -/
def fullDisp : Dispatcher :=
  { workerPool := [NewWorker 0], maxWorkers := 1,
    jobQueue := List.replicate queueCapacity demoJob, isRunning := true }

/-- A running one-worker system whose queue holds exactly `boomJob`. -/
def boomSys : Sys :=
  { disp := { workerPool := [NewWorker 0], maxWorkers := 1,
              jobQueue := [boomJob], isRunning := true },
    enqHistory := [boomJob], deqHistory := [] }

/-- A concrete scheduled job built by `NewScheduledJob`. -/
def demoSched : ScheduledJob :=
  NewScheduledJob 0 "demo-sched" 1000 (fun _ => none)

/-- `demoSched` after its first `Start` (running). -/
def runningSched : ScheduledJob := demoSched.StartState

/-- `demoSched` started and then stopped: back in the stopped state, with
the internal context cancelled. -/
def restartedSched : ScheduledJob := runningSched.Stop

/-! Helper lemmas shared by the claim theorems. -/

theorem firstBusy_none (l : List Bool) (h : ∀ b ∈ l, b = false) :
    firstBusy l = none := by
  induction l with
  | nil => rfl
  | cons b rest ih =>
    have hb := h b (List.mem_cons_self b rest)
    subst hb
    have hrest := ih (fun x hx => h x (List.mem_cons_of_mem _ hx))
    simp [firstBusy, hrest]

theorem foldl_sysStep_inv (P : Sys → Prop)
    (hstep : ∀ s op, P s → P (sysStep s op)) :
    ∀ (ops : List Op) (s : Sys), P s → P (ops.foldl sysStep s) := by
  intro ops
  induction ops with
  | nil => intro s hs; simpa using hs
  | cons op rest ih =>
    intro s hs
    simpa using ih (sysStep s op) (hstep s op hs)

theorem sysStep_queue_le (s : Sys) (op : Op)
    (h : s.disp.jobQueue.length ≤ queueCapacity) :
    (sysStep s op).disp.jobQueue.length ≤ queueCapacity := by
  cases op with
  | start =>
    simp only [sysStep, Dispatcher.Start]
    split <;> simpa using h
  | stop =>
    simp only [sysStep, Dispatcher.StopState]
    split <;> simpa using h
  | dispatch job =>
    simp only [sysStep, Dispatcher.DispatchJob]
    by_cases hr : s.disp.isRunning
    · by_cases hlen : s.disp.jobQueue.length < queueCapacity
      · simp only [hr, hlen]
        simp
        omega
      · simp only [hr, hlen]
        simpa using h
    · simp only [hr]
      simpa using h
  | deliver =>
    simp only [sysStep]
    cases hq : s.disp.jobQueue with
    | nil => simpa using h
    | cons j rest =>
      rw [hq] at h
      simpa using Nat.le_of_succ_le (by simpa using h)

theorem sysStep_hist (s : Sys) (op : Op)
    (h : s.enqHistory = s.deqHistory ++ s.disp.jobQueue) :
    (sysStep s op).enqHistory
      = (sysStep s op).deqHistory ++ (sysStep s op).disp.jobQueue := by
  cases op with
  | start =>
    simp only [sysStep, Dispatcher.Start]
    split <;> simpa using h
  | stop =>
    simp only [sysStep, Dispatcher.StopState]
    split <;> simpa using h
  | dispatch job =>
    simp only [sysStep, Dispatcher.DispatchJob]
    by_cases hr : s.disp.isRunning
    · by_cases hlen : s.disp.jobQueue.length < queueCapacity
      · simp only [hr, hlen]
        simp [h]
      · simp only [hr, hlen]
        simpa using h
    · simp only [hr]
      simpa using h
  | deliver =>
    simp only [sysStep]
    cases hq : s.disp.jobQueue with
    | nil => simpa using h
    | cons j rest =>
      rw [hq] at h
      simp [h]

theorem loopDispatches_length (s : ScheduledJob) (tr : List SchedEvent)
    (htr : SchedEvent.ctxDone ∉ tr) :
    ∀ u, (s.loopDispatches u tr).length = tr.length := by
  induction tr with
  | nil => intro u; rfl
  | cons e rest ih =>
    intro u
    cases e with
    | tick =>
      have hrest : SchedEvent.ctxDone ∉ rest :=
        fun hm => htr (List.mem_cons_of_mem _ hm)
      simp [ScheduledJob.loopDispatches, ih hrest]
    | ctxDone =>
      exact absurd (List.mem_cons_self _ _) htr

theorem loopDispatches_mem (s : ScheduledJob) (tr : List SchedEvent) :
    ∀ u j, j ∈ s.loopDispatches u tr
      → j.name = s.name ∧ j.execute = s.executeFunc := by
  induction tr with
  | nil => intro u j hj; simp [ScheduledJob.loopDispatches] at hj
  | cons e rest ih =>
    intro u j hj
    cases e with
    | tick =>
      rcases List.mem_cons.mp hj with hj | hj
      · subst hj; exact ⟨rfl, rfl⟩
      · exact ih (u + 1) j hj
    | ctxDone => simp [ScheduledJob.loopDispatches] at hj

theorem loopDispatches_id_ge (s : ScheduledJob) (tr : List SchedEvent) :
    ∀ u j, j ∈ s.loopDispatches u tr → u ≤ j.id := by
  induction tr with
  | nil => intro u j hj; simp [ScheduledJob.loopDispatches] at hj
  | cons e rest ih =>
    intro u j hj
    cases e with
    | tick =>
      rcases List.mem_cons.mp hj with hj | hj
      · subst hj; exact Nat.le_refl u
      · exact Nat.le_of_succ_le (ih (u + 1) j hj)
    | ctxDone => simp [ScheduledJob.loopDispatches] at hj

theorem loopDispatches_ids_nodup (s : ScheduledJob) (tr : List SchedEvent) :
    ∀ u, ((s.loopDispatches u tr).map Job.id).Nodup := by
  induction tr with
  | nil => intro u; simp [ScheduledJob.loopDispatches]
  | cons e rest ih =>
    intro u
    cases e with
    | tick =>
      simp only [ScheduledJob.loopDispatches, List.map_cons, List.nodup_cons]
      refine ⟨?_, ih (u + 1)⟩
      intro hmem
      rcases List.mem_map.mp hmem with ⟨j, hj, hid⟩
      have := loopDispatches_id_ge s rest (u + 1) j hj
      simp [ScheduledJob.wrapJob] at hid
      omega
    | ctxDone => simp [ScheduledJob.loopDispatches]

/-! Claim theorems. -/

/-- C1 (counterexample): the claim that `Stop` with an already-expired
context never blocks past the expiry is false as stated. On the running
one-worker dispatcher `busyStopDemo` whose single worker is busy inside
`job.Execute` (busy flags `[true]`), `Stop` is stuck sending on that
worker's unbuffered `quit` channel — a phase that the context does not
guard — so it does not return promptly. -/
theorem stop_blocks_on_busy_worker :
    busyStopDemo.isRunning = true
    ∧ stopReturnsPromptly busyStopDemo [true] false = false
    ∧ busyStopDemo.stopExec [true] true false = StopExec.blockedOnQuitSend 0 :=
  ⟨rfl, rfl, rfl⟩

/-- C1 (amended): for every running Dispatcher none of whose workers is
currently inside `job.Execute`, `Stop` with an already-expired context
returns promptly — the quit sends complete at once and the final select
has its `ctx.Done()` branch ready — and on return the Dispatcher is in
the not-running state. -/
theorem stop_expired_ctx_prompt (d : Dispatcher) (busy : List Bool)
    (workersExited : Bool)
    (h1 : d.isRunning = true) (h2 : ∀ b ∈ busy, b = false) :
    d.stopExec busy true workersExited
      = StopExec.returned d.StopState (!workersExited)
    ∧ d.StopState.isRunning = false
    ∧ stopReturnsPromptly d busy workersExited = true := by
  have hfb := firstBusy_none busy h2
  cases workersExited <;>
    simp [Dispatcher.stopExec, Dispatcher.StopState, stopReturnsPromptly, h1, hfb]

/-- Witness for the amended C1 at a concrete input: a started one-worker
dispatcher with its worker idle. -/
theorem stop_expired_ctx_prompt_witness :
    (NewDispatcher 1).Start.stopExec [false] true true
      = StopExec.returned (NewDispatcher 1).Start.StopState false
    ∧ (NewDispatcher 1).Start.StopState.isRunning = false
    ∧ stopReturnsPromptly (NewDispatcher 1).Start [false] true = true := by
  have h := stop_expired_ctx_prompt (NewDispatcher 1).Start [false] true rfl
    (by decide)
  simpa using h

/-- C2 (code bug): the worker pool is NOT bounded by the constructed
worker count. `Start` appends to a pool that `Stop` never clears, so
`NewDispatcher(1)` taken through `Start; Stop; Start` holds 2 workers,
exceeding `maxWorkers = 1`. -/
theorem worker_pool_grows_on_restart :
    restartDemo.workerPool.length = 2
    ∧ restartDemo.maxWorkers = 1
    ∧ ¬ restartDemo.workerPool.length ≤ restartDemo.maxWorkers := by
  decide

/-- C3: `DispatchJob` on a not-running Dispatcher logs exactly one
warning carrying the job's id and name, leaves the Dispatcher (and its
job queue) unchanged, returns nothing, and emits no execution event for
any job — the submitted job's `Execute` is never run by the call. -/
theorem dispatch_when_not_running_is_noop (d : Dispatcher) (job : Job)
    (h : d.isRunning = false) :
    d.DispatchJob job
      = (DispatchResult.dropped d,
        [Event.log ⟨LogLevel.warn, "Cannot dispatch job: dispatcher is not running",
          some job.id, some job.name, none, none⟩])
    ∧ ∀ jid r, Event.exec jid r ∉ (d.DispatchJob job).2 := by
  constructor
  · simp [Dispatcher.DispatchJob, h]
  · intro jid r
    simp [Dispatcher.DispatchJob, h]

/-- Witness for C3 at a concrete input: a freshly constructed (never
started) dispatcher drops a concrete job without executing it. -/
theorem dispatch_when_not_running_is_noop_witness :
    ((NewDispatcher 2).DispatchJob demoJob).1
      = DispatchResult.dropped (NewDispatcher 2)
    ∧ Event.exec demoJob.id none ∉ ((NewDispatcher 2).DispatchJob demoJob).2 := by
  have h := dispatch_when_not_running_is_noop (NewDispatcher 2) demoJob rfl
  exact ⟨by rw [h.1], h.2 demoJob.id none⟩

/-- C4: in every state reachable by any sequence of Start/Stop/dispatch/
deliver operations from a fresh dispatcher the job queue holds at most
its fixed capacity of 100 jobs, and a `DispatchJob` call on a running
Dispatcher whose queue is at capacity blocks the caller (the channel
send stalls) rather than dropping the job. -/
theorem queue_bounded_and_full_send_blocks (n : Nat) (ops : List Op)
    (d : Dispatcher) (job : Job)
    (h1 : d.isRunning = true) (h2 : d.jobQueue.length = queueCapacity) :
    (sysRun n ops).disp.jobQueue.length ≤ queueCapacity
    ∧ (d.DispatchJob job).1 = DispatchResult.blocked d := by
  constructor
  · exact foldl_sysStep_inv (fun s => s.disp.jobQueue.length ≤ queueCapacity)
      sysStep_queue_le ops (sysInit n) (by simp [sysInit, NewDispatcher])
  · simp [Dispatcher.DispatchJob, h1, h2]

/-- Witness for C4 at concrete inputs: a short concrete run stays within
capacity, and a running dispatcher with 100 queued jobs blocks a
dispatch. -/
theorem queue_bounded_and_full_send_blocks_witness :
    (sysRun 1 [Op.start, Op.dispatch demoJob]).disp.jobQueue.length
      ≤ queueCapacity
    ∧ (fullDisp.DispatchJob demoJob).1 = DispatchResult.blocked fullDisp :=
  queue_bounded_and_full_send_blocks 1 [Op.start, Op.dispatch demoJob]
    fullDisp demoJob rfl (by simp [fullDisp])

/-- C5: delivery to workers is FIFO relative to submission. In every
reachable state the full enqueue history equals the delivery history
followed by the still-queued jobs; in particular the sequence of jobs
received by workers is a prefix of the sequence of jobs admitted to the
queue, so a job enqueued earlier is delivered earlier. -/
theorem fifo_delivery (n : Nat) (ops : List Op) :
    (sysRun n ops).enqHistory
      = (sysRun n ops).deqHistory ++ (sysRun n ops).disp.jobQueue
    ∧ (sysRun n ops).deqHistory <+: (sysRun n ops).enqHistory := by
  have h := foldl_sysStep_inv
      (fun s => s.enqHistory = s.deqHistory ++ s.disp.jobQueue)
      sysStep_hist ops (sysInit n) (by simp [sysInit, NewDispatcher])
  exact ⟨h, ⟨_, h.symm⟩⟩

/-- C6: `RunJob(ctx, job)` executes the job synchronously in the caller's
thread of control: the returned error is exactly the error returned by
the job's `Execute`, the Dispatcher (queue and worker pool) is untouched,
and the execution event — with its completed result — is part of the
call's own event trace. -/
theorem runJob_synchronous (d : Dispatcher) (ctx : Ctx) (job : Job) :
    (d.RunJob ctx job).2.1 = job.execute ctx
    ∧ (d.RunJob ctx job).1 = d
    ∧ Event.exec job.id (job.execute ctx) ∈ (d.RunJob ctx job).2.2 := by
  refine ⟨rfl, rfl, ?_⟩
  simp [Dispatcher.RunJob]

/-- C7: when a delivered job's `Execute` returns an error, the worker
logs it at error level with the job id, job name and worker id, stays
alive for the next iteration, re-enqueues nothing (no retry) and
propagates no error to the Dispatcher; at the system level the job is
removed from the queue and recorded as delivered exactly once. -/
theorem worker_error_logged_and_loop_continues (w : Worker) (job : Job)
    (err : String) (s : Sys) (rest : List Job)
    (h : job.execute workerJobCtx = some err)
    (hq : s.disp.jobQueue = job :: rest) :
    Event.log ⟨LogLevel.error, "Failed to process job", some job.id,
        some job.name, some w.id, some err⟩
      ∈ (w.processOne job).events
    ∧ (w.processOne job).alive = true
    ∧ (w.processOne job).requeued = []
    ∧ (w.processOne job).propagated = none
    ∧ (sysStep s Op.deliver).disp.jobQueue = rest
    ∧ (sysStep s Op.deliver).deqHistory = s.deqHistory ++ [job] := by
  refine ⟨?_, rfl, rfl, rfl, ?_, ?_⟩
  · simp [Worker.processOne, h]
  · simp [sysStep, hq]
  · simp [sysStep, hq]

/-- Witness for C7 at a concrete input: worker 0 processing the failing
`boomJob` from a one-element queue. -/
theorem worker_error_logged_and_loop_continues_witness :
    Event.log ⟨LogLevel.error, "Failed to process job", some boomJob.id,
        some boomJob.name, some (NewWorker 0).id, some "boom"⟩
      ∈ ((NewWorker 0).processOne boomJob).events
    ∧ ((NewWorker 0).processOne boomJob).alive = true
    ∧ (sysStep boomSys Op.deliver).disp.jobQueue = [] := by
  have h := worker_error_logged_and_loop_continues (NewWorker 0) boomJob
    "boom" boomSys [] rfl rfl
  exact ⟨h.1, h.2.1, h.2.2.2.2.1⟩

/-- C8 (counterexample): the claim that `Start` on every stopped
ScheduledJob dispatches again on every tick is false as stated. The
concrete `restartedSched` (started once, then stopped) is in the stopped
state, yet restarting it dispatches only the immediate job: the loop's
first select observes the permanently cancelled context and exits before
any tick — the runtime trace `[ctxDone, tick]` yields one dispatch where
the claim requires two. -/
theorem sched_restart_misses_ticks :
    restartedSched.isRunning = false
    ∧ restartedSched.ctxCancelled = true
    ∧ admissibleTrace restartedSched [SchedEvent.ctxDone, SchedEvent.tick]
    ∧ (restartedSched.StartDispatches 1
        [SchedEvent.ctxDone, SchedEvent.tick]).length = 1 :=
  ⟨rfl, rfl, fun _ => rfl, rfl⟩

/-- C8 (amended): for every ScheduledJob in the stopped state whose
internal cancellation context has not been cancelled (so the loop never
observes `ctx.Done()`), `Start` dispatches once immediately and then once
per observed tick; every dispatched job carries a fresh unique id and the
scheduler's own name and action, and all of them are handed to
`dispatcher.DispatchJob`. -/
theorem sched_start_dispatches_fresh_per_tick (s : ScheduledJob)
    (uuidSupply : Nat) (tr : List SchedEvent)
    (h1 : s.isRunning = false) (h2 : s.ctxCancelled = false)
    (htr : SchedEvent.ctxDone ∉ tr) :
    admissibleTrace s tr
    ∧ (s.StartDispatches uuidSupply tr).length = tr.length + 1
    ∧ ((s.StartDispatches uuidSupply tr).map Job.id).Nodup
    ∧ ∀ j ∈ s.StartDispatches uuidSupply tr,
        j.name = s.name ∧ j.execute = s.executeFunc := by
  refine ⟨fun hc => absurd hc (by simp [h2]), ?_, ?_, ?_⟩
  · simp [ScheduledJob.StartDispatches, h1,
      loopDispatches_length s tr htr (uuidSupply + 1)]
  · simp only [ScheduledJob.StartDispatches, h1, Bool.false_eq_true,
      if_false, List.map_cons, List.nodup_cons]
    refine ⟨?_, loopDispatches_ids_nodup s tr (uuidSupply + 1)⟩
    intro hmem
    rcases List.mem_map.mp hmem with ⟨j, hj, hid⟩
    have := loopDispatches_id_ge s tr (uuidSupply + 1) j hj
    simp [ScheduledJob.wrapJob] at hid
    omega
  · intro j hj
    simp only [ScheduledJob.StartDispatches, h1, Bool.false_eq_true,
      if_false] at hj
    rcases List.mem_cons.mp hj with hj | hj
    · subst hj; exact ⟨rfl, rfl⟩
    · exact loopDispatches_mem s tr (uuidSupply + 1) j hj

/-- Witness for the amended C8 at a concrete input: the fresh
`demoSched` restarted with two observed ticks dispatches three jobs with
pairwise distinct ids. -/
theorem sched_start_dispatches_fresh_per_tick_witness :
    (demoSched.StartDispatches 5 [SchedEvent.tick, SchedEvent.tick]).length = 3
    ∧ ((demoSched.StartDispatches 5
        [SchedEvent.tick, SchedEvent.tick]).map Job.id).Nodup := by
  have h := sched_start_dispatches_fresh_per_tick demoSched 5
    [SchedEvent.tick, SchedEvent.tick] rfl rfl (by decide)
  exact ⟨h.2.1, h.2.2.1⟩

/-- C9: `RunJob` performs no check of the running flag: its result and
events are unchanged under any value of `isRunning`, and on a never
started dispatcher as well as on a stopped one it still returns exactly
the error of the job's `Execute`. -/
theorem runJob_ignores_running_flag (d : Dispatcher) (ctx : Ctx) (job : Job)
    (b : Bool) :
    (({ d with isRunning := b } : Dispatcher).RunJob ctx job).2
      = (d.RunJob ctx job).2
    ∧ (d.RunJob ctx job).2.1 = job.execute ctx
    ∧ ((NewDispatcher d.maxWorkers).RunJob ctx job).2.1 = job.execute ctx
    ∧ (d.StopState.RunJob ctx job).2.1 = job.execute ctx :=
  ⟨rfl, rfl, rfl, rfl⟩

/-- C10: once an effective `Stop` has run on a ScheduledJob, the
internally owned context is cancelled and stays cancelled — `Start`
never recreates it and later `Stop`s keep it cancelled — so from any
such state a restarted loop observes cancellation at its first select:
no tick ever dispatches again and a `Start` hands at most the one
immediate job to `DispatchJob`. -/
theorem sched_stop_cancels_permanently (s s' : ScheduledJob)
    (uuidSupply : Nat) (tr : List SchedEvent)
    (h : s.isRunning = true)
    (hc : s'.ctxCancelled = true)
    (hadm : admissibleTrace s' tr) :
    s.Stop.ctxCancelled = true
    ∧ s'.StartState.ctxCancelled = true
    ∧ s'.Stop.ctxCancelled = true
    ∧ s'.loopDispatches (uuidSupply + 1) tr = []
    ∧ (s'.StartDispatches uuidSupply tr).length ≤ 1 := by
  have hloop : s'.loopDispatches (uuidSupply + 1) tr = [] := by
    have hhd := hadm hc
    cases tr with
    | nil => simp at hhd
    | cons e rest =>
      simp at hhd
      subst hhd
      rfl
  refine ⟨?_, ?_, ?_, hloop, ?_⟩
  · simp [ScheduledJob.Stop, h]
  · simp only [ScheduledJob.StartState]
    split <;> simpa using hc
  · simp only [ScheduledJob.Stop]
    split
    · simp
    · simpa using hc
  · simp only [ScheduledJob.StartDispatches]
    split
    · simp
    · simp [hloop]

/-- Witness for C10 at a concrete input: stopping the running
`runningSched` cancels its context, and restarting it dispatches at most
the immediate job on the runtime trace `[ctxDone]`. -/
theorem sched_stop_cancels_permanently_witness :
    runningSched.Stop.ctxCancelled = true
    ∧ (runningSched.Stop.StartDispatches 0 [SchedEvent.ctxDone]).length ≤ 1 := by
  have h := sched_stop_cancels_permanently runningSched runningSched.Stop 0
    [SchedEvent.ctxDone] rfl rfl (fun _ => rfl)
  exact ⟨h.1, h.2.2.2.2⟩

end Jobs
